import Mathlib

/-!
Verification development for the CodeLens screenshot-analysis application.

The development shallowly embeds the capture/analysis orchestration core:
  * the response parsing of the OpenRouter service (regex-based JSON and
    text-heuristic extraction),
  * the image validation and preparation utilities,
  * the code/general analyzers with their error-substitution policy,
  * the screenshot slot ring of the main process,
  * the single-flight analysis guard of the main process, modelled as a
    labelled transition system over interleavings of trigger events,
  * the per-run behavior of the analysis orchestrator (result formatting,
    context storage, failure messages).

JavaScript strings are modelled as Lean strings (lists of characters);
regular expressions from the source are embedded as direct character-list
matchers whose doc comments cite the original pattern and whose behavior
reproduces the backtracking semantics of that pattern.
-/

namespace CodeLens

/-! ## JavaScript-style string helpers -/

/-- Backtick character, written numerically. -/
def btick : Char := Char.ofNat 96

/-- Underscore character. -/
def uscore : Char := Char.ofNat 95

/-- JavaScript whitespace class `\s` (ASCII part: space, tab, newline,
carriage return, form feed, vertical tab). -/
def jsWs (c : Char) : Bool :=
  c = ' ' || c = '\t' || c = '\n' || c = '\r' || c = Char.ofNat 12 || c = Char.ofNat 11

/-- JavaScript word-character class `\w` = `[A-Za-z0-9_]`. -/
def isWordChar (c : Char) : Bool :=
  c.isAlpha || c.isDigit || c = uscore

/-- Strip JavaScript whitespace from both ends of a character list
(the effect of surrounding `\s*` in the source regexes, and of
JavaScript `String.prototype.trim` on its ASCII subset). -/
def trimWsL (cs : List Char) : List Char :=
  ((cs.dropWhile jsWs).reverse.dropWhile jsWs).reverse

/-- JavaScript `s.trim()` (ASCII whitespace subset). -/
def trimJs (s : String) : String :=
  String.mk (trimWsL s.toList)

/-- JavaScript `s.toLowerCase()` (character-wise, ASCII behavior). -/
def toLowerJs (s : String) : String :=
  String.mk (s.toList.map Char.toLower)

/-- JavaScript `s.substring(a, b)` for characters. -/
def substringJs (s : String) (a b : Nat) : String :=
  String.mk ((s.toList.drop a).take (b - a))

/-- Drop a literal pattern from the front of a character list, if present. -/
def dropLit : List Char → List Char → Option (List Char)
  | [], cs => some cs
  | _ :: _, [] => none
  | p :: ps, c :: cs => if p = c then dropLit ps cs else none

/-- Does `s` start with the literal `pat`?  JavaScript
`s.startsWith(pat)`. -/
def startsWithJs (s pat : String) : Bool :=
  (dropLit pat.toList s.toList).isSome

/-- Drop a literal pattern from the front, comparing case-insensitively
(for regexes carrying the `i` flag). -/
def dropLitCI : List Char → List Char → Option (List Char)
  | [], cs => some cs
  | _ :: _, [] => none
  | p :: ps, c :: cs => if p.toLower = c.toLower then dropLitCI ps cs else none

/-- Does `cs` contain `pat` as a contiguous sublist?  Embeds JavaScript
`String.prototype.includes`. -/
def listContainsSub (pat : List Char) : List Char → Bool
  | [] => (dropLit pat []).isSome
  | c :: cs => (dropLit pat (c :: cs)).isSome || listContainsSub pat cs

/-- JavaScript `s.includes(pat)`. -/
def strContains (s pat : String) : Bool :=
  listContainsSub pat.toList s.toList

/-- Leftmost-match driver: try the position matcher `f` at every suffix of
the subject, left to right, returning the first success.  This is how a
JavaScript regex engine finds the leftmost match of an anchored attempt. -/
def firstSome {α : Type} (f : List Char → Option α) : List Char → Option α
  | [] => f []
  | c :: cs =>
    match f (c :: cs) with
    | some r => some r
    | none => firstSome f cs

/-! ## Fenced-code-block matching (part of the OpenRouter service)

The source uses the regexes
  `JSON_BLOCK_REGEX = /```(?:json)?\s*([\s\S]*?)\s*```/`
  `CODE_BLOCK_REGEX = /```(?:\w+)?\s*([\s\S]*?)\s*```/g`
  `CODE_BLOCK_LANG_REGEX = /```(\w+)/`
They are embedded below as character-list matchers. -/

/-- Consume an opening fence `` ``` ``, returning the rest. -/
def afterFence : List Char → Option (List Char)
  | a :: b :: c :: rest =>
    if a = btick ∧ b = btick ∧ c = btick then some rest else none
  | _ => none

/-- Scan forward to the first closing fence `` ``` `` in `cs`, returning
the segment before it and the suffix after its three backticks. -/
def splitAtCloser : List Char → Option (List Char × List Char)
  | [] => none
  | c :: cs =>
    match afterFence (c :: cs) with
    | some rest => some ([], rest)
    | none =>
      match splitAtCloser cs with
      | some (seg, rest) => some (c :: seg, rest)
      | none => none

/-- Tail `\s*([\s\S]*?)\s*``` ` of the fence regexes: the lazy group ends at
the first closing fence, and the greedy `\s*` on either side strip the
whitespace bordering the captured segment.  Returns (capture, rest after
the match). -/
def fenceTail (cs : List Char) : Option (List Char × List Char) :=
  match splitAtCloser cs with
  | some (seg, rest) => some (trimWsL seg, rest)
  | none => none

/-- Attempt of `` /```(?:json)?\s*([\s\S]*?)\s*```/ `` at one position:
opening fence, then the greedy optional literal `json` (with backtracking
to the empty alternative), then the whitespace-stripped lazy capture up to
the closing fence. -/
def jsonBlockAt (cs : List Char) : Option (List Char × List Char) :=
  match afterFence cs with
  | none => none
  | some rest =>
    match dropLit ['j', 's', 'o', 'n'] rest with
    | some rest2 =>
      match fenceTail rest2 with
      | some r => some r
      | none => fenceTail rest
    | none => fenceTail rest

/-- Group 1 of the first match of `JSON_BLOCK_REGEX` in the text. -/
def jsonBlockCapture (text : List Char) : Option (List Char) :=
  (firstSome jsonBlockAt text).map Prod.fst

/-- Attempt of `` /```(?:\w+)?\s*([\s\S]*?)\s*```/ `` at one position: the
greedy optional tag `\w+` takes the maximal word run after the fence (word
characters cannot hide a closing fence, so partial backtracking of the tag
never changes the outcome; only the empty alternative is a fallback). -/
def codeBlockAt (cs : List Char) : Option (List Char × List Char) :=
  match afterFence cs with
  | none => none
  | some rest =>
    let tag := rest.takeWhile isWordChar
    match fenceTail (rest.drop tag.length) with
    | some r => some r
    | none => fenceTail rest

/-- All successive matches of `CODE_BLOCK_REGEX` (the `g` flag): each
search resumes after the end of the previous match.  Fuel bounds the
number of matches; each match consumes at least six characters, so
`text.length + 1` fuel is never exhausted. -/
def codeBlockCapturesAux : Nat → List Char → List (List Char)
  | 0, _ => []
  | fuel + 1, cs =>
    match firstSome codeBlockAt cs with
    | none => []
    | some (cap, rest) => cap :: codeBlockCapturesAux fuel rest

/-- Captures of all matches of `CODE_BLOCK_REGEX` in the text. -/
def codeBlockCaptures (cs : List Char) : List (List Char) :=
  codeBlockCapturesAux (cs.length + 1) cs

/-- Attempt of `` /```(\w+)/ `` at one position: fence followed by at least
one word character; the greedy group takes the maximal word run. -/
def codeBlockLangAt (cs : List Char) : Option (List Char) :=
  match afterFence cs with
  | none => none
  | some rest =>
    let run := rest.takeWhile isWordChar
    if run.isEmpty then none else some run

/-! ## Keyword-anchored extraction regexes -/

/-- Greedy class star with backtracking, followed by a greedy nonempty
class run that forms the capture: the semantics of `star*([plus]+)` where
the star is greedy but gives characters back (rightmost first) until the
capture can start. -/
def classStarThenPlus (star plus : Char → Bool) : List Char → Option (List Char)
  | [] => none
  | c :: cs =>
    if star c then
      match classStarThenPlus star plus cs with
      | some cap => some cap
      | none => if plus c then some ((c :: cs).takeWhile plus) else none
    else if plus c then some ((c :: cs).takeWhile plus)
    else none

/-- Attempt of `` /`${type}\s*complexity[\s:]*([^\n.]+)`/i `` at one
position: the case-insensitive type literal, greedy `\s*` (whose giveback
can never begin the literal `complexity`, so the maximal run is exact),
the case-insensitive literal `complexity`, then `[\s:]*` with backtracking
followed by the greedy capture `([^\n.]+)`. -/
def complexityAt (ty : List Char) (cs : List Char) : Option (List Char) :=
  match dropLitCI ty cs with
  | none => none
  | some r1 =>
    match dropLitCI ['c', 'o', 'm', 'p', 'l', 'e', 'x', 'i', 't', 'y'] (r1.dropWhile jsWs) with
    | none => none
    | some r2 =>
      classStarThenPlus (fun c => jsWs c || c = ':') (fun c => c != '\n' && c != '.') r2

/-- `extractComplexity(text, type)` of the OpenRouter service: leftmost
match of the complexity regex, group 1 trimmed, else null. -/
def extractComplexity (text : String) (ty : String) : Option String :=
  (firstSome (complexityAt ty.toList) text.toList).map (fun cap => String.mk (trimWsL cap))

/-- Attempt of `/language[:\s]+(\w+)/i` at one position: the
case-insensitive literal, then at least one `[:\s]`, then the greedy word
capture. -/
def languageMentionAt (cs : List Char) : Option (List Char) :=
  match dropLitCI ['l', 'a', 'n', 'g', 'u', 'a', 'g', 'e'] cs with
  | none => none
  | some r =>
    match r with
    | [] => none
    | c :: rest =>
      if c = ':' || jsWs c then
        classStarThenPlus (fun d => d = ':' || jsWs d) isWordChar rest
      else none

/-- `extractLanguage(text)` of the OpenRouter service: an explicit
`language: X` mention wins; otherwise the tag of the first fenced code
block, unless that tag lowercases to `json`; otherwise null. -/
def extractLanguage (text : String) : Option String :=
  match firstSome languageMentionAt text.toList with
  | some cap => some (String.mk cap)
  | none =>
    match firstSome codeBlockLangAt text.toList with
    | some cap =>
      if toLowerJs (String.mk cap) = "json" then none else some (String.mk cap)
    | none => none

/-! ## OpenRouter response parsing -/

/-- `AnalysisResponse` of the OpenRouter service (identical in shape to the
analyzer result type `CodeAnalysisResult`). -/
structure AnalysisResponse where
  code : String
  summary : String
  timeComplexity : String
  spaceComplexity : String
  language : String
deriving DecidableEq, Repr

/-- `GeneralAnalysisResponse` of the OpenRouter service. -/
structure GeneralAnalysisResponse where
  answer : String
  explanation : String
  test : String
deriving DecidableEq, Repr

/-- The optional fields a JSON reply may carry for code mode. -/
structure CodeJsonFields where
  code : Option String
  summary : Option String
  timeComplexity : Option String
  spaceComplexity : Option String
  language : Option String
deriving DecidableEq, Repr

/-- JavaScript `v || d` where a missing or empty string falls back to the
default. -/
def jsOr (v : Option String) (d : String) : String :=
  match v with
  | some s => if s = "" then d else s
  | none => d

/-- JavaScript empty-string fallback `s || d`. -/
def jsOrStr (s d : String) : String :=
  if s = "" then d else s

/-- `extractAndParseJson` of the OpenRouter service: take the capture of
the first `JSON_BLOCK_REGEX` match (else the whole reply), and hand it to
`JSON.parse` only when its trimmed form starts with a brace.  `JSON.parse`
itself is an input of the model (`jsonParse`); a parse error is its `none`
result. -/
def extractAndParseJson (jsonParse : String → Option CodeJsonFields)
    (responseText : String) : Option CodeJsonFields :=
  let jsonStr :=
    match jsonBlockCapture responseText.toList with
    | some cap => String.mk cap
    | none => responseText
  if startsWithJs (trimJs jsonStr) "\x7b" then jsonParse jsonStr else none

/-- `extractCodeFromText` of the OpenRouter service: concatenate every
fenced-block capture followed by two newlines, trim; if empty fall back to
the first 500 characters of the raw text. -/
def extractCodeFromText (text : String) : String :=
  let pieces := (codeBlockCaptures text.toList).map (fun c => String.mk c ++ "\n\n")
  let extracted := trimJs (String.join pieces)
  if extracted = "" then substringJs text 0 500 else extracted

/-- `extractFromText` of the OpenRouter service: heuristic field
extraction with per-field fallback text. -/
def extractFromText (text : String) : AnalysisResponse :=
  { code := jsOrStr (extractCodeFromText text) "Code extraction failed"
    summary := substringJs text 0 200 ++ (if text.toList.length > 200 then "..." else "")
    timeComplexity := jsOr (extractComplexity text "time") "Not identified"
    spaceComplexity := jsOr (extractComplexity text "space") "Not identified"
    language := jsOr (extractLanguage text) "Unknown" }

/-- `parseResponse` of the OpenRouter service: JSON extraction first, with
per-field defaults; text-heuristic fallback otherwise. -/
def parseResponse (jsonParse : String → Option CodeJsonFields)
    (responseText : String) : AnalysisResponse :=
  match extractAndParseJson jsonParse responseText with
  | some parsed =>
    { code := jsOr parsed.code ""
      summary := jsOr parsed.summary ""
      timeComplexity := jsOr parsed.timeComplexity "O(?)"
      spaceComplexity := jsOr parsed.spaceComplexity "O(?)"
      language := jsOr parsed.language "Unknown" }
  | none => extractFromText responseText

/-! ## Image utilities (lib/utils/image)

`validateImageFile` inspects only the `size` of the `fs.stat` result, so
the stat is modelled by the file size alone. -/

/-- Result shape of `validateImageFile`. -/
structure ValidationResult where
  isValid : Bool
  error : Option String
deriving DecidableEq, Repr

/-- `validateImageFile(stats)`: rejects empty files and files above the
20 MiB ceiling (`20 * 1024 * 1024` bytes). -/
def validateImageFile (size : Nat) : ValidationResult :=
  if size = 0 then { isValid := false, error := some "Image file is empty" }
  else if size > 20 * 1024 * 1024 then
    { isValid := false, error := some "Image file too large (max 20MB)" }
  else { isValid := true, error := none }

/-- JavaScript `path.split(".")` on characters. -/
def splitDotAux : List Char → List Char → List (List Char)
  | [], acc => [acc.reverse]
  | c :: cs, acc =>
    if c = '.' then acc.reverse :: splitDotAux cs [] else splitDotAux cs (c :: acc)

/-- `getMimeType(path)`: MIME type from the lowercased last
extension-like component (`path.split(".").pop()?.toLowerCase()`),
defaulting to PNG. -/
def getMimeType (path : String) : String :=
  let ext := ((splitDotAux path.toList []).getLast?).map (fun cs => toLowerJs (String.mk cs))
  match ext with
  | some "jpg" => "image/jpeg"
  | some "jpeg" => "image/jpeg"
  | some "gif" => "image/gif"
  | some "webp" => "image/webp"
  | _ => "image/png"

/-! ## Image preparation (processImages of the code analyzer)

The filesystem is modelled as a read-only map from paths to files; a
`none` entry stands for a failing `fs.stat`/`fs.readFile` (whose thrown
error the source catches per file).  The `content` field stands for the
base64 payload of the file bytes. -/

/-- A file visible to `fs.stat`/`fs.readFile`. -/
structure FsFile where
  size : Nat
  content : String
deriving DecidableEq, Repr

/-- The filesystem: read-only path-to-file map. -/
def FileSys : Type := String → Option FsFile

/-- Inline image representation sent to the provider. -/
structure ImageContent where
  mimeType : String
  dataUrl : String
deriving DecidableEq, Repr

/-- Preparation of one path inside `processImages`: stat (failure caught,
yielding null), validation (invalid dropped as null), then the data URL
built from MIME type and base64 content. -/
def processOne (fs : FileSys) (path : String) : Option ImageContent :=
  match fs path with
  | none => none
  | some f =>
    if (validateImageFile f.size).isValid then
      some { mimeType := getMimeType path
             dataUrl := "data:" ++ getMimeType path ++ ";base64," ++ f.content }
    else none

/-- `processImages(imagePaths)`: prepare every path and keep the non-null
results. -/
def processImages (fs : FileSys) (imagePaths : List String) : List ImageContent :=
  (imagePaths.map (processOne fs)).filterMap id

/-- `processImages` with the filesystem threaded through, reflecting that
the source only stats and reads: the returned filesystem is the input
one. -/
def processImagesSt (fs : FileSys) (imagePaths : List String) :
    List ImageContent × FileSys :=
  (processImages fs imagePaths, fs)

/-! ## Code analyzer (services/codeAnalyzer.ts)

The provider gateway call `analyzeCodeWithProvider` is an input of the
model (`gateway`): `Except.ok` is a returned response, `Except.error` a
thrown error with its message text.  The analyzer body is total — every
branch returns a populated result, mirroring the catch-all in the
source. -/

/-- `CodeAnalysisResult` of the code analyzer (the same field shape as the
service response type). -/
abbrev CodeAnalysisResult := AnalysisResponse

/-- `createErrorResponse(error, details)` of the code analyzer. -/
def createErrorResponse (error details : String) : CodeAnalysisResult :=
  { code := error
    summary := details
    timeComplexity := "N/A"
    spaceComplexity := "N/A"
    language := "Unknown" }

/-- `handleCodeResult(result, onLanguageDetected)`: forwards the result
unchanged and notifies the callback (when supplied) with the language
field when that field is truthy and not the literal `Unknown`.  The
`notified` list records the callback invocations. -/
def handleCodeResult (result : AnalysisResponse) (hasCallback : Bool) :
    AnalysisResponse × List String :=
  if result.language ≠ "" ∧ result.language ≠ "Unknown" ∧ hasCallback = true then
    (result, [result.language])
  else (result, [])

/-- The part of the `AnalysisRequest` the claims observe: how many images
were attached and which previous context was threaded in. -/
structure AnalysisRequestInfo where
  imageCount : Nat
  previousContext : Option String
deriving DecidableEq, Repr

/-- Outcome of one `analyzeContentFromImages` call: the result, the
language-callback invocations, and the request info when the gateway
stage was reached (`none` when a local check short-circuited). -/
structure CodeAnalyzerOutcome where
  result : CodeAnalysisResult
  notified : List String
  request : Option AnalysisRequestInfo
deriving DecidableEq, Repr

/-- `analyzeContentFromImages`: input validation, image preparation,
gateway call, result handling; every failure is substituted by a
field-populated error response (service errors are recognized by the
substring `API` in the thrown message). -/
def analyzeContentFromImages (fs : FileSys) (imagePaths : List String)
    (previousContext : Option String) (gateway : Except String AnalysisResponse)
    (hasCallback : Bool) : CodeAnalyzerOutcome :=
  if imagePaths.isEmpty then
    { result := createErrorResponse "No images provided" "Please capture screenshots first"
      notified := []
      request := none }
  else
    let imageContents := processImages fs imagePaths
    if imageContents.isEmpty then
      { result := createErrorResponse "Failed to process images" "Please check image files"
        notified := []
        request := none }
    else
      let req : AnalysisRequestInfo :=
        { imageCount := imageContents.length, previousContext := previousContext }
      match gateway with
      | Except.ok result =>
        let handled := handleCodeResult result hasCallback
        { result := handled.1, notified := handled.2, request := some req }
      | Except.error msg =>
        let isServiceError := strContains msg "API"
        let errorMsg := if isServiceError then "AI service unavailable" else "Analysis failed"
        let details := if isServiceError then "Please check your API key" else "Please try again"
        { result := createErrorResponse errorMsg details
          notified := []
          request := some req }

/-! ## General analyzer (services/generalAnalyzer.ts) -/

/-- `GeneralAnalysisResult` of the general analyzer. -/
structure GeneralAnalysisResult where
  answer : String
  explanation : String
  test : String
deriving DecidableEq, Repr

/-- `createErrorResponse(error, details)` of the general analyzer. -/
def createGeneralErrorResponse (error details : String) : GeneralAnalysisResult :=
  { answer := error
    explanation := details
    test := "No test available" }

/-- Outcome of one `analyzeGeneralContentFromImages` call. -/
structure GeneralAnalyzerOutcome where
  result : GeneralAnalysisResult
  request : Option AnalysisRequestInfo
deriving DecidableEq, Repr

/-- `analyzeGeneralContentFromImages`: the general-mode twin of the code
analyzer, with its own failure wordings. -/
def analyzeGeneralContentFromImages (fs : FileSys) (imagePaths : List String)
    (previousContext : Option String)
    (gateway : Except String GeneralAnalysisResponse) : GeneralAnalyzerOutcome :=
  if imagePaths.isEmpty then
    { result := createGeneralErrorResponse "No images provided"
        "Capture at least one screenshot to analyze"
      request := none }
  else
    let imageContents := processImages fs imagePaths
    if imageContents.isEmpty then
      { result := createGeneralErrorResponse "Failed to process images"
          "Verify screenshot files and try again"
        request := none }
    else
      let req : AnalysisRequestInfo :=
        { imageCount := imageContents.length, previousContext := previousContext }
      match gateway with
      | Except.ok r =>
        { result := { answer := r.answer, explanation := r.explanation, test := r.test }
          request := some req }
      | Except.error msg =>
        let isServiceError := strContains msg "API"
        let errorMsg := if isServiceError then "AI service unavailable" else "Analysis failed"
        let details :=
          if isServiceError then "Check your API key and provider availability"
          else "Please try again"
        { result := createGeneralErrorResponse errorMsg details
          request := some req }

/-! ## Orchestrator state (main process)

The module-level mutable variables of the main process that the claims
observe, gathered into one state record.  The overlay window is assumed
present (`mainWindow` non-null) throughout; the single-flight flags are
modelled separately as a transition system below, because they only
matter for interleavings of asynchronous events. -/

/-- `AnalysisMode` of the main process. -/
inductive AnalysisMode where
  | code
  | general
deriving DecidableEq, Repr

/-- `MAX_SCREENSHOTS` of the main process. -/
def MAX_SCREENSHOTS : Nat := 2

/-- The orchestrator state variables the ring, scheduling and per-run
claims observe.  `analysisTimer` holds the delay of a scheduled,
not-yet-fired auto-trigger. -/
structure OrchestratorState where
  screenshotCount : Nat
  screenshotPaths : List String
  previousCodeAnalysis : Option String
  previousGeneralAnalysis : Option String
  currentMode : AnalysisMode
  analysisTimer : Option Nat
  pendingAnalysis : Bool
deriving DecidableEq, Repr

/-- The initial orchestrator state. -/
def initialState : OrchestratorState :=
  { screenshotCount := 0
    screenshotPaths := []
    previousCodeAnalysis := none
    previousGeneralAnalysis := none
    currentMode := AnalysisMode.code
    analysisTimer := none
    pendingAnalysis := false }

/-- `scheduleAnalysis(delay)`: clears any existing debounce timer and arms
a fresh one with the given delay. -/
def scheduleAnalysis (delay : Nat) (s : OrchestratorState) : OrchestratorState :=
  { s with analysisTimer := some delay }

/-- `cancelScheduledAnalysis()`: clears the debounce timer and the pending
rerun flag. -/
def cancelScheduledAnalysis (s : OrchestratorState) : OrchestratorState :=
  { s with analysisTimer := none, pendingAnalysis := false }

/-- The mode flip inside `toggleAnalysisMode`. -/
def toggleMode : AnalysisMode → AnalysisMode
  | AnalysisMode.code => AnalysisMode.general
  | AnalysisMode.general => AnalysisMode.code

/-- `toggleAnalysisMode()`: cancels any scheduled auto-trigger and flips
the mode; no analysis is started. -/
def toggleAnalysisMode (s : OrchestratorState) : OrchestratorState :=
  let s1 := cancelScheduledAnalysis s
  { s1 with currentMode := toggleMode s1.currentMode }

/-- Whether a previous analysis exists for the current mode
(`hasContext` in `saveScreenshot`). -/
def hasContextFor (s : OrchestratorState) : Bool :=
  match s.currentMode with
  | AnalysisMode.code => s.previousCodeAnalysis.isSome
  | AnalysisMode.general => s.previousGeneralAnalysis.isSome

/-- The slot chosen for the next insert:
`nextSlot = screenshotCount >= MAX_SCREENSHOTS ? 1 : screenshotCount + 1`. -/
def nextSlotFor (count : Nat) : Nat :=
  if count ≥ MAX_SCREENSHOTS then 1 else count + 1

/-- Observable side effects of one `saveScreenshot` call: the slot the
capture went to, the path scheduled for best-effort deletion (if any),
and whether an auto-analysis was scheduled. -/
structure SaveEffects where
  slot : Nat
  evicted : Option String
  scheduled : Bool
deriving DecidableEq, Repr

/-- `saveScreenshot(buffer, method)`, with the freshly written file path
as input: choose the next slot, commit the path into the ring (replacing
or appending), update the counter, schedule the old occupant for deletion
after the commit, and arm the 500 ms auto-trigger when the updated
counter equals `MAX_SCREENSHOTS` or equals 1 with a previous analysis for
the current mode. -/
def saveScreenshot (s : OrchestratorState) (filePath : String) :
    OrchestratorState × SaveEffects :=
  let nextSlot := nextSlotFor s.screenshotCount
  let slotIndex := nextSlot - 1
  let replaced :=
    if s.screenshotPaths.length < MAX_SCREENSHOTS then
      if slotIndex < s.screenshotPaths.length then
        (s.screenshotPaths.set slotIndex filePath, s.screenshotPaths.get? slotIndex)
      else
        (s.screenshotPaths ++ [filePath], none)
    else
      (s.screenshotPaths.set slotIndex filePath, s.screenshotPaths.get? slotIndex)
  let s1 := { s with screenshotPaths := replaced.1, screenshotCount := nextSlot }
  let evicted :=
    match replaced.2 with
    | some pp => if pp ≠ filePath then some pp else none
    | none => none
  let trigger :=
    s1.screenshotCount = MAX_SCREENSHOTS ∨ (s1.screenshotCount = 1 ∧ hasContextFor s1 = true)
  let s2 := if trigger then scheduleAnalysis 500 s1 else s1
  (s2, { slot := nextSlot, evicted := evicted, scheduled := decide trigger })

/-! ## Per-run behavior of `triggerAnalysis`

The body of one analysis run, between setting and clearing the
single-flight flag.  The analyzer embeddings above are total, so the
orchestrator-level catch can only fire if the awaited analyzer call
itself throws; that possibility is an explicit input (`thrown`). -/

/-- `previousAnalysis || undefined` as passed to the analyzers: a null or
empty-string context becomes no context. -/
def ctxArg : Option String → Option String
  | some s => if s = "" then none else some s
  | none => none

/-- Escape one character for a JSON string literal (the backslash, quote
and ASCII control-character escapes of `JSON.stringify`). -/
def jsonEscChar (c : Char) : String :=
  if c = '\\' then "\\\\"
  else if c = Char.ofNat 34 then "\\\""
  else if c = '\n' then "\\n"
  else if c = '\r' then "\\r"
  else if c = '\t' then "\\t"
  else String.mk [c]

/-- A JSON string literal for `s`. -/
def jsonStrLit (s : String) : String :=
  "\"" ++ String.join (s.toList.map jsonEscChar) ++ "\""

/-- `JSON.stringify` of a code result, with the field order of the object
literal in `triggerAnalysis`. -/
def jsonStringifyCode (r : CodeAnalysisResult) : String :=
  "\x7b\"code\":" ++ jsonStrLit r.code ++
  ",\"summary\":" ++ jsonStrLit r.summary ++
  ",\"timeComplexity\":" ++ jsonStrLit r.timeComplexity ++
  ",\"spaceComplexity\":" ++ jsonStrLit r.spaceComplexity ++
  ",\"language\":" ++ jsonStrLit r.language ++ "\x7d"

/-- `JSON.stringify` of a general result. -/
def jsonStringifyGeneral (r : GeneralAnalysisResult) : String :=
  "\x7b\"answer\":" ++ jsonStrLit r.answer ++
  ",\"explanation\":" ++ jsonStrLit r.explanation ++
  ",\"test\":" ++ jsonStrLit r.test ++ "\x7d"

/-- The code-mode markdown template of `triggerAnalysis`. -/
def formatCodeMarkdown (r : CodeAnalysisResult) : String :=
  "\n## Code\n```" ++ toLowerJs r.language ++ "\n" ++ r.code ++
  "\n```\n\n## Summary\n" ++ r.summary ++
  "\n\n## Complexity Analysis\n- **Time Complexity:** " ++ r.timeComplexity ++
  "\n- **Space Complexity:** " ++ r.spaceComplexity ++
  "\n- **Language:** " ++ r.language

/-- The general-mode markdown template of `triggerAnalysis`. -/
def formatGeneralMarkdown (r : GeneralAnalysisResult) : String :=
  "\n## Solution\n" ++ r.answer ++
  "\n\n## Analysis\n" ++ r.explanation ++
  "\n\n## Test Plan\n" ++ r.test

/-- The failure-context wording of the catch branch. -/
def failureContextFor : AnalysisMode → String
  | AnalysisMode.code => "code analysis"
  | AnalysisMode.general => "general analysis"

/-- The error message emitted by the catch branch of `triggerAnalysis`. -/
def analysisFailedMessage (mode : AnalysisMode) (msg : String) : String :=
  "# Analysis Failed\n\nAn error occurred during " ++ failureContextFor mode ++
  ": " ++ msg ++ "\n\nPlease try again or check your OpenAI API key configuration."

/-- What one run emits to the renderer: the analysis-result markdown, the
status line, and (for the reads-audit) the previous context that was
passed to the analyzer. -/
structure RunOutput where
  markdown : String
  status : String
  requestContext : Option String
deriving DecidableEq, Repr

/-- The body of one analysis run in `triggerAnalysis`: resolve the
context slot of the current mode, call the mode analyzer, format the
result, store its serialization as the new context of that mode; if the
awaited analyzer call itself throws (`thrown`), emit the Analysis Failed
message and leave both context slots untouched.  (The `Unexpected result
format` branch of the source is unreachable here because the embedded
analyzer always returns the code-result shape.) -/
def runAnalysis (s : OrchestratorState) (fs : FileSys)
    (codeGw : Except String AnalysisResponse)
    (genGw : Except String GeneralAnalysisResponse)
    (thrown : Option String) : OrchestratorState × RunOutput :=
  match thrown with
  | some msg =>
    (s, { markdown := analysisFailedMessage s.currentMode msg
          status := "Analysis failed"
          requestContext := none })
  | none =>
    match s.currentMode with
    | AnalysisMode.code =>
      let ctx := ctxArg s.previousCodeAnalysis
      let call := analyzeContentFromImages fs s.screenshotPaths ctx codeGw true
      let s1 := { s with previousCodeAnalysis := some (jsonStringifyCode call.result) }
      (s1, { markdown := formatCodeMarkdown call.result
             status := "Analysis completed"
             requestContext := ctx })
    | AnalysisMode.general =>
      let ctx := ctxArg s.previousGeneralAnalysis
      let call := analyzeGeneralContentFromImages fs s.screenshotPaths ctx genGw
      let s1 := { s with previousGeneralAnalysis := some (jsonStringifyGeneral call.result) }
      (s1, { markdown := formatGeneralMarkdown call.result
             status := "Analysis completed"
             requestContext := ctx })

/-! ## Single-flight guard (triggerAnalysis flags)

A labelled transition system over the interleavings of analysis trigger
events and completions.  `inFlight` and `started` are ghost
instrumentation counting the gateway calls currently running and ever
started; `pathsNonempty` and `hasModel` stand for the guards
`screenshotPaths.length > 0` (with the window present) and the
availability of a current model — both are constant across trigger
interleavings, since captures and resets are outside the claimed event
set. -/

/-- The flag state of the single-flight guard, with ghost counters. -/
structure FlightState where
  isAnalysisRunning : Bool
  pendingAnalysis : Bool
  pathsNonempty : Bool
  hasModel : Bool
  inFlight : Nat
  started : Nat
deriving DecidableEq, Repr

/-- The synchronous prefix of `triggerAnalysis()`: return if no paths;
while running, only set the pending flag; without a model, return; else
clear pending, raise the running flag and start one gateway call. -/
def trigAnalysis (s : FlightState) : FlightState :=
  if s.pathsNonempty = false then s
  else if s.isAnalysisRunning then { s with pendingAnalysis := true }
  else if s.hasModel = false then s
  else
    { s with isAnalysisRunning := true
             pendingAnalysis := false
             inFlight := s.inFlight + 1
             started := s.started + 1 }

/-- The `finally` block of the in-flight call: clear the running flag
(the call has returned, so one fewer is in flight); if a rerun is pending
and paths remain, clear the pending flag and re-invoke
`triggerAnalysis`. -/
def completeRun (s : FlightState) : FlightState :=
  let s1 := { s with isAnalysisRunning := false, inFlight := s.inFlight - 1 }
  if s1.pendingAnalysis ∧ s1.pathsNonempty then
    trigAnalysis { s1 with pendingAnalysis := false }
  else s1

/-- The trigger events of the claimed interleavings: the manual shortcut
(which first runs `cancelScheduledAnalysis`, clearing the pending flag),
the scheduled debounce firing, and the completion of the in-flight
call. -/
inductive FlightEvent where
  | manual
  | scheduled
  | complete
deriving DecidableEq, Repr

/-- The effect of one trigger event (total on non-completion events).
The manual shortcut returns early when no screenshots exist. -/
def applyTrigger (s : FlightState) : FlightEvent → FlightState
  | FlightEvent.manual =>
    if s.pathsNonempty then trigAnalysis { s with pendingAnalysis := false } else s
  | FlightEvent.scheduled => trigAnalysis s
  | FlightEvent.complete => s

/-- One step of the transition system; a completion is only enabled while
a call is in flight. -/
def flightStep (s : FlightState) : FlightEvent → Option FlightState
  | FlightEvent.complete =>
    if s.inFlight = 0 then none else some (completeRun s)
  | e => some (applyTrigger s e)

/-- The initial flag state for given guard constants. -/
def initFlight (pne hm : Bool) : FlightState :=
  { isAnalysisRunning := false
    pendingAnalysis := false
    pathsNonempty := pne
    hasModel := hm
    inFlight := 0
    started := 0 }

/-- States reachable from an initial flag state by the event system. -/
inductive FlightReachable : FlightState → Prop where
  | init (pne hm : Bool) : FlightReachable (initFlight pne hm)
  | step (s : FlightState) (e : FlightEvent) (t : FlightState) :
      FlightReachable s → flightStep s e = some t → FlightReachable t

/-- The single-flight invariant: the ghost in-flight count mirrors the
running flag, a running state has a model, and the guard constants are
whatever they are. -/
def flightInv (s : FlightState) : Prop :=
  s.inFlight = (if s.isAnalysisRunning then 1 else 0) ∧
  (s.isAnalysisRunning = true → s.hasModel = true)

/-! ## Statement vocabulary -/

/-- Every field of the code result shape is a non-empty string. -/
@[reducible]
def nonEmptyCodeFields (r : CodeAnalysisResult) : Prop :=
  r.code ≠ "" ∧ r.summary ≠ "" ∧ r.timeComplexity ≠ "" ∧
  r.spaceComplexity ≠ "" ∧ r.language ≠ ""

/-- Every field of the general result shape is a non-empty string. -/
@[reducible]
def nonEmptyGeneralFields (r : GeneralAnalysisResult) : Prop :=
  r.answer ≠ "" ∧ r.explanation ≠ "" ∧ r.test ≠ ""

/-! ## Concrete fixtures used by witnesses and counterexamples -/

/-- The provider reply of the fallback-parsing property. -/
def c7Input : String :=
  "Here is code:\n```python\nprint(1)\n```\ntime complexity: O(1)\nspace complexity: O(1)"

/-- A filesystem on which every stat succeeds with a small valid file. -/
def fsAllValid : FileSys := fun _ => some { size := 10, content := "imgdata" }

/-- A pre-run orchestrator state holding a last-good code context. -/
def c3State : OrchestratorState :=
  { screenshotCount := 1
    screenshotPaths := ["shot1.png"]
    previousCodeAnalysis := some "last-good-context"
    previousGeneralAnalysis := none
    currentMode := AnalysisMode.code
    analysisTimer := none
    pendingAnalysis := false }

/-- The run of the counterexample: the gateway call fails with a
network-style error while a last-good context is stored. -/
def c3Run : OrchestratorState × RunOutput :=
  runAnalysis c3State fsAllValid
    (Except.error "OpenRouter API call failed: connect ETIMEDOUT")
    (Except.ok { answer := "", explanation := "", test := "" })
    none

/-- A pre-run state in general mode carrying a code context, for the
mode-isolation witness. -/
def c6State : OrchestratorState :=
  { screenshotCount := 1
    screenshotPaths := ["shot1.png"]
    previousCodeAnalysis := some "code-context"
    previousGeneralAnalysis := some "general-context"
    currentMode := AnalysisMode.general
    analysisTimer := some 500
    pendingAnalysis := false }

/-- A reachable running flag state: one scheduled trigger fired from the
initial state with screenshots and a model available. -/
def c1Start : FlightState :=
  applyTrigger (initFlight true true) FlightEvent.scheduled

/-! # Theorems -/

/-! ## Helper lemmas on substring containment -/

theorem dropLit_append (pat : List Char) :
    ∀ (l ys r : List Char), dropLit pat l = some r →
      dropLit pat (l ++ ys) = some (r ++ ys) := by
  induction pat with
  | nil =>
    intro l ys r h
    simp [dropLit] at h
    simp [dropLit, h]
  | cons p ps ih =>
    intro l ys r h
    cases l with
    | nil => simp [dropLit] at h
    | cons c cs =>
      simp only [List.cons_append, dropLit] at h ⊢
      by_cases hpc : p = c
      · rw [if_pos hpc] at h ⊢
        exact ih cs ys r h
      · rw [if_neg hpc] at h
        simp at h

theorem listContainsSub_append_left (pat : List Char) :
    ∀ (xs ys : List Char), listContainsSub pat xs = true →
      listContainsSub pat (xs ++ ys) = true := by
  intro xs
  induction xs with
  | nil =>
    intro ys h
    simp [listContainsSub, Option.isSome] at h
    split at h
    next r hr =>
      cases pat with
      | nil =>
        cases ys with
        | nil => simp [listContainsSub, dropLit]
        | cons c cs => simp [listContainsSub, dropLit]
      | cons p ps => simp [dropLit] at hr
    · exact absurd h (by simp)
  | cons c cs ih =>
    intro ys h
    simp only [listContainsSub, Bool.or_eq_true, Option.isSome_iff_exists] at h
    rcases h with ⟨r, hr⟩ | h
    · have := dropLit_append pat (c :: cs) ys r hr
      simp only [List.cons_append, listContainsSub, Bool.or_eq_true]
      left
      rw [show (c :: cs) ++ ys = c :: (cs ++ ys) from rfl] at this
      simp [this]
    · simp only [List.cons_append, listContainsSub, Bool.or_eq_true]
      right
      exact ih ys h

theorem dropLit_self_append (pat : List Char) :
    ∀ ys : List Char, dropLit pat (pat ++ ys) = some ys := by
  induction pat with
  | nil => intro ys; simp [dropLit]
  | cons p ps ih => intro ys; simp [dropLit, ih]

theorem listContainsSub_here (pat ys : List Char) :
    listContainsSub pat (pat ++ ys) = true := by
  cases pat with
  | nil =>
    cases ys with
    | nil => simp [listContainsSub, dropLit]
    | cons c cs => simp [listContainsSub, dropLit]
  | cons p ps =>
    simp only [List.cons_append, listContainsSub, Bool.or_eq_true]
    left
    have := dropLit_self_append (p :: ps) ys
    rw [show (p :: ps) ++ ys = p :: (ps ++ ys) from rfl] at this
    simp [this]

theorem listContainsSub_append_right (pat : List Char) :
    ∀ (xs l : List Char), listContainsSub pat l = true →
      listContainsSub pat (xs ++ l) = true := by
  intro xs
  induction xs with
  | nil => intro l h; simpa using h
  | cons c cs ih =>
    intro l h
    simp only [List.cons_append, listContainsSub, Bool.or_eq_true]
    right
    exact ih l h

theorem strToList_append (a b : String) : (a ++ b).toList = a.toList ++ b.toList := by
  cases a with
  | mk da => cases b with
    | mk db => rfl

/-- A string built around `mid` contains `mid`. -/
theorem strContains_around (a mid b : String) :
    strContains (a ++ mid ++ b) mid = true := by
  unfold strContains
  rw [strToList_append, strToList_append, List.append_assoc]
  exact listContainsSub_append_right _ _ _ (listContainsSub_here _ _)

/-! ## C7 — fallback parsing on the concrete provider reply -/

/-- C7: on the provider reply `Here is code:` followed by a python-tagged
fence around `print(1)` and the two complexity lines — a reply containing
no JSON object — `parseResponse` (for every JSON parser, since the JSON
path is never taken) returns a result whose code field contains
`print(1)` (indeed equals it), whose language is `python` from the fence
tag, and whose time complexity is `O(1)`. -/
theorem fallback_parsing_concrete :
    ∀ jsonParse : String → Option CodeJsonFields,
      strContains (parseResponse jsonParse c7Input).code "print(1)" = true ∧
      (parseResponse jsonParse c7Input).code = "print(1)" ∧
      (parseResponse jsonParse c7Input).language = "python" ∧
      (parseResponse jsonParse c7Input).timeComplexity = "O(1)" := by
  intro jsonParse
  exact ⟨rfl, rfl, rfl, rfl⟩

/-! ## C5 — ring wraparound over three inserts -/

/-- C5: with `MAX_SCREENSHOTS = 2`, saving three screenshots from the
initial state assigns slots 1, 2, 1; the first two saves evict nothing;
the third save commits the new path into slot 1 and schedules the file
that previously occupied slot 1 for best-effort deletion. -/
theorem ring_wraparound_three_inserts :
    (saveScreenshot initialState "p1").2.slot = 1 ∧
    (saveScreenshot initialState "p1").2.evicted = none ∧
    (saveScreenshot (saveScreenshot initialState "p1").1 "p2").2.slot = 2 ∧
    (saveScreenshot (saveScreenshot initialState "p1").1 "p2").2.evicted = none ∧
    (saveScreenshot (saveScreenshot (saveScreenshot initialState "p1").1 "p2").1
        "p3").2.slot = 1 ∧
    (saveScreenshot (saveScreenshot (saveScreenshot initialState "p1").1 "p2").1
        "p3").2.evicted = some "p1" ∧
    (saveScreenshot (saveScreenshot (saveScreenshot initialState "p1").1 "p2").1
        "p3").1.screenshotPaths = ["p3", "p2"] ∧
    (saveScreenshot (saveScreenshot (saveScreenshot initialState "p1").1 "p2").1
        "p3").1.screenshotCount = 1 := by
  decide

/-! ## C9 — conditional next-slot formula equals the modular formula -/

/-- C9: for every count between 0 and `MAX_SCREENSHOTS`, the conditional
slot formula of `saveScreenshot` agrees with the modular-ring formula
`count % MAX_SCREENSHOTS + 1`. -/
theorem next_slot_modular (count : Nat) (h : count ≤ MAX_SCREENSHOTS) :
    nextSlotFor count = count % MAX_SCREENSHOTS + 1 := by
  simp only [MAX_SCREENSHOTS] at h
  interval_cases count <;> decide

/-- Witness for C9 at the wraparound point `count = 2`. -/
theorem next_slot_modular_witness :
    2 ≤ MAX_SCREENSHOTS ∧ nextSlotFor 2 = 2 % MAX_SCREENSHOTS + 1 :=
  ⟨by decide, next_slot_modular 2 (by decide)⟩

/-! ## C8 — image validation boundary and dropping of rejected files -/

/-- C8: `validateImageFile` accepts exactly the sizes strictly between 0
and the 20 MiB ceiling inclusive — 0 is rejected, exactly 20 MiB
(20971520 bytes) is accepted, 20 MiB + 1 is rejected; image preparation
drops a file as null exactly when its stat fails or validation rejects
it; and the filesystem is returned unchanged (the preparer only
reads). -/
theorem image_validation_boundary :
    (∀ size : Nat, (validateImageFile size).isValid = true ↔
        (size ≠ 0 ∧ size ≤ 20 * 1024 * 1024)) ∧
    (validateImageFile 0).isValid = false ∧
    (validateImageFile (20 * 1024 * 1024)).isValid = true ∧
    (validateImageFile (20 * 1024 * 1024 + 1)).isValid = false ∧
    (∀ (fs : FileSys) (p : String), processOne fs p = none ↔
        (fs p = none ∨ ∃ f, fs p = some f ∧ (validateImageFile f.size).isValid = false)) ∧
    (∀ (fs : FileSys) (paths : List String), (processImagesSt fs paths).2 = fs) := by
  refine ⟨?_, by decide, by decide, by decide, ?_, fun fs paths => rfl⟩
  · intro size
    unfold validateImageFile
    by_cases h0 : size = 0
    · simp [h0]
    · by_cases h1 : size > 20 * 1024 * 1024
      · rw [if_neg h0, if_pos h1]
        simp
        omega
      · rw [if_neg h0, if_neg h1]
        simp [h0]
        omega
  · intro fs p
    cases hfs : fs p with
    | none => simp [processOne, hfs]
    | some f =>
      by_cases hv : (validateImageFile f.size).isValid = true
      · simp [processOne, hfs, hv]
      · simp only [processOne, hfs, if_neg hv, Option.some.injEq, true_iff]
        right
        exact ⟨f, rfl, by simpa using hv⟩

/-! ## C10 — the language-detected callback -/

/-- C10: `handleCodeResult` returns the gateway result unchanged; the
callback is invoked at most once, always with the language field, and is
invoked exactly once precisely when the language field is non-empty,
differs from `Unknown`, and a callback was supplied; on the success path
`analyzeContentFromImages` forwards exactly this behavior. -/
theorem language_callback_exactly_once :
    (∀ (r : AnalysisResponse) (hcb : Bool), (handleCodeResult r hcb).1 = r) ∧
    (∀ (r : AnalysisResponse) (hcb : Bool),
        (handleCodeResult r hcb).2 = [] ∨ (handleCodeResult r hcb).2 = [r.language]) ∧
    (∀ (r : AnalysisResponse) (hcb : Bool),
        (handleCodeResult r hcb).2 = [r.language] ↔
          (r.language ≠ "" ∧ r.language ≠ "Unknown" ∧ hcb = true)) ∧
    (∀ (fs : FileSys) (paths : List String) (ctx : Option String)
        (r : AnalysisResponse) (hcb : Bool),
        paths.isEmpty = false → (processImages fs paths).isEmpty = false →
        (analyzeContentFromImages fs paths ctx (Except.ok r) hcb).result = r ∧
        (analyzeContentFromImages fs paths ctx (Except.ok r) hcb).notified =
          (handleCodeResult r hcb).2) := by
  have hfst : ∀ (r : AnalysisResponse) (hcb : Bool), (handleCodeResult r hcb).1 = r := by
    intro r hcb
    unfold handleCodeResult
    split <;> rfl
  refine ⟨hfst, ?_, ?_, ?_⟩
  · intro r hcb
    unfold handleCodeResult
    split
    · right; rfl
    · left; rfl
  · intro r hcb
    unfold handleCodeResult
    split
    next hcond => simpa using hcond
    next hcond =>
      constructor
      · intro h
        exact absurd h (by simp)
      · intro h
        exact absurd h hcond
  · intro fs paths ctx r hcb hp hi
    unfold analyzeContentFromImages
    rw [if_neg (by simp [hp]), if_neg (by simp [hi])]
    exact ⟨hfst r hcb, rfl⟩

/-- Witness for C10, discharging its hypotheses at one valid image. -/
theorem language_callback_witness :
    (analyzeContentFromImages fsAllValid ["shot1.png"] none
        (Except.ok { code := "x", summary := "s", timeComplexity := "O(1)",
                     spaceComplexity := "O(1)", language := "python" }) true).result =
      { code := "x", summary := "s", timeComplexity := "O(1)",
        spaceComplexity := "O(1)", language := "python" } ∧
    (analyzeContentFromImages fsAllValid ["shot1.png"] none
        (Except.ok { code := "x", summary := "s", timeComplexity := "O(1)",
                     spaceComplexity := "O(1)", language := "python" }) true).notified =
      ["python"] := by
  obtain ⟨-, -, hiff, hfwd⟩ := language_callback_exactly_once
  have h := hfwd fsAllValid ["shot1.png"] none
    { code := "x", summary := "s", timeComplexity := "O(1)",
      spaceComplexity := "O(1)", language := "python" } true (by decide) (by decide)
  refine ⟨h.1, ?_⟩
  rw [h.2]
  exact (hiff _ true).mpr (by decide)

/-! ## C2 — the auto-trigger condition after a saved capture -/

/-- C2: after every saved capture, the 500 ms debounce is armed exactly
when the updated slot counter equals `MAX_SCREENSHOTS` or equals 1 with a
previous analysis stored for the current mode; when the condition fails
the timer is left as it was; arming always replaces any not-yet-fired
schedule; and capturing screenshot 1 from the initial state (no previous
analysis) schedules nothing. -/
theorem auto_trigger_condition :
    (∀ (s : OrchestratorState) (p : String),
        (saveScreenshot s p).2.scheduled = true ↔
          (nextSlotFor s.screenshotCount = MAX_SCREENSHOTS ∨
            (nextSlotFor s.screenshotCount = 1 ∧ hasContextFor s = true))) ∧
    (∀ (s : OrchestratorState) (p : String),
        (saveScreenshot s p).1.analysisTimer =
          (if (saveScreenshot s p).2.scheduled = true then some 500 else s.analysisTimer)) ∧
    (∀ (s : OrchestratorState) (d : Nat),
        (scheduleAnalysis d s).analysisTimer = some d) ∧
    (saveScreenshot initialState "first.png").2.scheduled = false ∧
    (saveScreenshot initialState "first.png").1.analysisTimer = none := by
  refine ⟨?_, ?_, fun s d => rfl, by decide, by decide⟩
  · intro s p
    unfold saveScreenshot
    simp only [decide_eq_true_eq]
    exact Iff.rfl
  · intro s p
    by_cases h : (saveScreenshot s p).2.scheduled = true
    · rw [if_pos h]
      revert h
      unfold saveScreenshot
      simp only [decide_eq_true_eq]
      intro h
      rw [if_pos h]
      rfl
    · rw [if_neg h]
      revert h
      unfold saveScreenshot
      simp only [decide_eq_true_eq]
      intro h
      rw [if_neg h]

/-! ## C4 — failure branches return fully populated results -/

/-- C4: both analyzers are total functions of their inputs (the thrown
gateway error being one of the inputs), and on every failure branch — no
image paths, an all-invalid batch, a thrown provider error, or any other
thrown error — every field of the returned result shape is a non-empty
string. -/
theorem error_substitution_no_blank_fields :
    (∀ (fs : FileSys) (paths : List String) (ctx : Option String)
        (gw : Except String AnalysisResponse) (hcb : Bool),
        (paths.isEmpty = true ∨ (processImages fs paths).isEmpty = true ∨
          ∃ m, gw = Except.error m) →
        nonEmptyCodeFields (analyzeContentFromImages fs paths ctx gw hcb).result) ∧
    (∀ (fs : FileSys) (paths : List String) (ctx : Option String)
        (gw : Except String GeneralAnalysisResponse),
        (paths.isEmpty = true ∨ (processImages fs paths).isEmpty = true ∨
          ∃ m, gw = Except.error m) →
        nonEmptyGeneralFields (analyzeGeneralContentFromImages fs paths ctx gw).result) := by
  constructor
  · intro fs paths ctx gw hcb h
    unfold analyzeContentFromImages
    by_cases hp : paths.isEmpty = true
    · rw [if_pos hp]
      decide
    · rw [if_neg hp]
      by_cases hi : (processImages fs paths).isEmpty = true
      · rw [if_pos hi]
        decide
      · rw [if_neg hi]
        cases gw with
        | ok r =>
          rcases h with h | h | ⟨m, hm⟩
          · exact absurd h hp
          · exact absurd h hi
          · exact absurd hm (by simp)
        | error m =>
          by_cases hs : strContains m "API" = true
          · simp only [hs]
            decide
          · rw [Bool.not_eq_true] at hs
            simp only [hs]
            decide
  · intro fs paths ctx gw h
    unfold analyzeGeneralContentFromImages
    by_cases hp : paths.isEmpty = true
    · rw [if_pos hp]
      decide
    · rw [if_neg hp]
      by_cases hi : (processImages fs paths).isEmpty = true
      · rw [if_pos hi]
        decide
      · rw [if_neg hi]
        cases gw with
        | ok r =>
          rcases h with h | h | ⟨m, hm⟩
          · exact absurd h hp
          · exact absurd h hi
          · exact absurd hm (by simp)
        | error m =>
          by_cases hs : strContains m "API" = true
          · simp only [hs]
            decide
          · rw [Bool.not_eq_true] at hs
            simp only [hs]
            decide

/-- Witness for C4 on the no-images branch of both analyzers. -/
theorem error_substitution_witness :
    nonEmptyCodeFields
      (analyzeContentFromImages fsAllValid [] none
        (Except.error "OpenRouter API call failed: x") true).result ∧
    nonEmptyGeneralFields
      (analyzeGeneralContentFromImages fsAllValid [] none
        (Except.error "OpenRouter general analysis failed: x")).result := by
  obtain ⟨hc, hg⟩ := error_substitution_no_blank_fields
  exact ⟨hc fsAllValid [] none _ true (Or.inl rfl), hg fsAllValid [] none _ (Or.inl rfl)⟩

/-! ## C3 — what happens when the gateway call fails -/

/-- C3 counterexample: a run in code mode whose gateway call throws a
provider error.  The analyzer converts the failure into a placeholder
result, so the orchestrator emits the normally formatted markdown — which
does not contain `Analysis Failed` — reports the `Analysis completed`
status, and overwrites the stored last-good code context.  This refutes
the claim that a failing gateway call yields an Analysis Failed message
and leaves `previousAnalysis` untouched. -/
theorem analysis_failure_counterexample :
    c3State.previousCodeAnalysis = some "last-good-context" ∧
    c3Run.1.previousCodeAnalysis ≠ some "last-good-context" ∧
    strContains c3Run.2.markdown "Analysis Failed" = false ∧
    c3Run.2.status = "Analysis completed" := by
  decide

/-- C3 amended: when the gateway call fails, the analyzer substitutes a
placeholder result; the orchestrator then emits the normally formatted
markdown of the placeholder with status `Analysis completed` and
overwrites the current-mode previous analysis with the serialized
placeholder.  The Analysis Failed message — which embeds the error text —
with both previous-analysis slots preserved occurs exactly when the
awaited analyzer call itself throws into `triggerAnalysis`. -/
theorem analysis_failure_amended :
    (∀ (s : OrchestratorState) (fs : FileSys) (msg : String)
        (gg : Except String GeneralAnalysisResponse),
        s.currentMode = AnalysisMode.code →
        s.screenshotPaths.isEmpty = false →
        (processImages fs s.screenshotPaths).isEmpty = false →
        (runAnalysis s fs (Except.error msg) gg none).1.previousCodeAnalysis =
          some (jsonStringifyCode (analyzeContentFromImages fs s.screenshotPaths
            (ctxArg s.previousCodeAnalysis) (Except.error msg) true).result) ∧
        (runAnalysis s fs (Except.error msg) gg none).2.markdown =
          formatCodeMarkdown (analyzeContentFromImages fs s.screenshotPaths
            (ctxArg s.previousCodeAnalysis) (Except.error msg) true).result ∧
        (analyzeContentFromImages fs s.screenshotPaths
            (ctxArg s.previousCodeAnalysis) (Except.error msg) true).result =
          createErrorResponse
            (if strContains msg "API" = true then "AI service unavailable" else "Analysis failed")
            (if strContains msg "API" = true then "Please check your API key" else "Please try again") ∧
        (runAnalysis s fs (Except.error msg) gg none).2.status = "Analysis completed") ∧
    (∀ (s : OrchestratorState) (fs : FileSys)
        (cg : Except String AnalysisResponse)
        (gg : Except String GeneralAnalysisResponse) (msg : String),
        (runAnalysis s fs cg gg (some msg)).1.previousCodeAnalysis =
          s.previousCodeAnalysis ∧
        (runAnalysis s fs cg gg (some msg)).1.previousGeneralAnalysis =
          s.previousGeneralAnalysis ∧
        (runAnalysis s fs cg gg (some msg)).2.markdown =
          analysisFailedMessage s.currentMode msg ∧
        strContains (analysisFailedMessage s.currentMode msg) "Analysis Failed" = true ∧
        strContains (analysisFailedMessage s.currentMode msg) msg = true ∧
        (runAnalysis s fs cg gg (some msg)).2.status = "Analysis failed") := by
  constructor
  · intro s fs msg gg hmode hp hi
    obtain ⟨cnt, paths, pc, pg, mode, timer, pend⟩ := s
    simp only at hmode hp hi
    subst hmode
    refine ⟨rfl, rfl, ?_, rfl⟩
    unfold analyzeContentFromImages
    rw [if_neg (by simp [hp]), if_neg (by simp [hi])]
  · intro s fs cg gg msg
    refine ⟨rfl, rfl, rfl, ?_, ?_, rfl⟩
    · show strContains
        ("# Analysis Failed\n\nAn error occurred during " ++ failureContextFor s.currentMode ++
          ": " ++ msg ++ "\n\nPlease try again or check your OpenAI API key configuration.")
        "Analysis Failed" = true
      unfold strContains
      rw [strToList_append, strToList_append, strToList_append, strToList_append]
      rw [List.append_assoc, List.append_assoc, List.append_assoc]
      exact listContainsSub_append_left _ _ _ (by decide)
    · show strContains
        ("# Analysis Failed\n\nAn error occurred during " ++ failureContextFor s.currentMode ++
          ": " ++ msg ++ "\n\nPlease try again or check your OpenAI API key configuration.")
        msg = true
      unfold strContains
      rw [strToList_append, strToList_append, strToList_append, strToList_append]
      rw [List.append_assoc, List.append_assoc, List.append_assoc]
      refine listContainsSub_append_right _ _ _ ?_
      refine listContainsSub_append_right _ _ _ ?_
      refine listContainsSub_append_right _ _ _ ?_
      exact listContainsSub_here _ _

/-- Witness for C3 amended: the gateway-failure conclusion at the
counterexample state, and the thrown-analyzer conclusion at a concrete
message. -/
theorem analysis_failure_amended_witness :
    (runAnalysis c3State fsAllValid
        (Except.error "OpenRouter API call failed: connect ETIMEDOUT")
        (Except.ok { answer := "", explanation := "", test := "" })
        none).2.status = "Analysis completed" ∧
    strContains (analysisFailedMessage c3State.currentMode "boom") "Analysis Failed" = true := by
  obtain ⟨hfail, hthrow⟩ := analysis_failure_amended
  have h1 := hfail c3State fsAllValid "OpenRouter API call failed: connect ETIMEDOUT"
    (Except.ok { answer := "", explanation := "", test := "" }) rfl (by decide) (by decide)
  have h2 := hthrow c3State fsAllValid
    (Except.error "OpenRouter API call failed: connect ETIMEDOUT")
    (Except.ok { answer := "", explanation := "", test := "" }) "boom"
  exact ⟨h1.2.2.2, h2.2.2.2.1⟩

/-! ## C6 — mode isolation -/

/-- C6: a general-mode run leaves the code context unchanged and neither
its outputs nor its new general context depend on the code context (and
symmetrically for a code-mode run and the general context); the context
each run threads into its request is the current mode's own slot;
toggling the mode cancels the scheduled auto-trigger and leaves both
stored contexts unchanged; hence setting a code context, switching to
general, running, and switching back leaves the original code context
untouched. -/
theorem mode_isolation :
    (∀ (s : OrchestratorState) (fs : FileSys) (cg : Except String AnalysisResponse)
        (gg : Except String GeneralAnalysisResponse) (th : Option String),
        s.currentMode = AnalysisMode.general →
        (runAnalysis s fs cg gg th).1.previousCodeAnalysis = s.previousCodeAnalysis) ∧
    (∀ (s : OrchestratorState) (fs : FileSys) (cg : Except String AnalysisResponse)
        (gg : Except String GeneralAnalysisResponse) (th : Option String),
        s.currentMode = AnalysisMode.code →
        (runAnalysis s fs cg gg th).1.previousGeneralAnalysis = s.previousGeneralAnalysis) ∧
    (∀ (s : OrchestratorState) (x : Option String) (fs : FileSys)
        (cg : Except String AnalysisResponse)
        (gg : Except String GeneralAnalysisResponse) (th : Option String),
        s.currentMode = AnalysisMode.general →
        (runAnalysis { s with previousCodeAnalysis := x } fs cg gg th).2 =
          (runAnalysis s fs cg gg th).2 ∧
        (runAnalysis { s with previousCodeAnalysis := x } fs cg gg th).1.previousGeneralAnalysis =
          (runAnalysis s fs cg gg th).1.previousGeneralAnalysis) ∧
    (∀ (s : OrchestratorState) (x : Option String) (fs : FileSys)
        (cg : Except String AnalysisResponse)
        (gg : Except String GeneralAnalysisResponse) (th : Option String),
        s.currentMode = AnalysisMode.code →
        (runAnalysis { s with previousGeneralAnalysis := x } fs cg gg th).2 =
          (runAnalysis s fs cg gg th).2 ∧
        (runAnalysis { s with previousGeneralAnalysis := x } fs cg gg th).1.previousCodeAnalysis =
          (runAnalysis s fs cg gg th).1.previousCodeAnalysis) ∧
    (∀ (s : OrchestratorState) (fs : FileSys) (cg : Except String AnalysisResponse)
        (gg : Except String GeneralAnalysisResponse),
        s.currentMode = AnalysisMode.general →
        (runAnalysis s fs cg gg none).2.requestContext = ctxArg s.previousGeneralAnalysis) ∧
    (∀ s : OrchestratorState,
        (toggleAnalysisMode s).previousCodeAnalysis = s.previousCodeAnalysis ∧
        (toggleAnalysisMode s).previousGeneralAnalysis = s.previousGeneralAnalysis ∧
        (toggleAnalysisMode s).analysisTimer = none) ∧
    (∀ (s : OrchestratorState) (fs : FileSys) (cg : Except String AnalysisResponse)
        (gg : Except String GeneralAnalysisResponse) (th : Option String) (c : String),
        s.currentMode = AnalysisMode.code →
        s.previousCodeAnalysis = some c →
        (toggleAnalysisMode
          (runAnalysis (toggleAnalysisMode s) fs cg gg th).1).previousCodeAnalysis = some c) := by
  have hGenCode : ∀ (s : OrchestratorState) (fs : FileSys) (cg : Except String AnalysisResponse)
      (gg : Except String GeneralAnalysisResponse) (th : Option String),
      s.currentMode = AnalysisMode.general →
      (runAnalysis s fs cg gg th).1.previousCodeAnalysis = s.previousCodeAnalysis := by
    intro s fs cg gg th hmode
    obtain ⟨cnt, paths, pc, pg, mode, timer, pend⟩ := s
    simp only at hmode
    subst hmode
    cases th with
    | some m => rfl
    | none => rfl
  have hCodeGen : ∀ (s : OrchestratorState) (fs : FileSys) (cg : Except String AnalysisResponse)
      (gg : Except String GeneralAnalysisResponse) (th : Option String),
      s.currentMode = AnalysisMode.code →
      (runAnalysis s fs cg gg th).1.previousGeneralAnalysis = s.previousGeneralAnalysis := by
    intro s fs cg gg th hmode
    obtain ⟨cnt, paths, pc, pg, mode, timer, pend⟩ := s
    simp only at hmode
    subst hmode
    cases th with
    | some m => rfl
    | none => rfl
  refine ⟨hGenCode, hCodeGen, ?_, ?_, ?_, fun s => ⟨rfl, rfl, rfl⟩, ?_⟩
  · intro s x fs cg gg th hmode
    obtain ⟨cnt, paths, pc, pg, mode, timer, pend⟩ := s
    simp only at hmode
    subst hmode
    cases th with
    | some m => exact ⟨rfl, rfl⟩
    | none => exact ⟨rfl, rfl⟩
  · intro s x fs cg gg th hmode
    obtain ⟨cnt, paths, pc, pg, mode, timer, pend⟩ := s
    simp only at hmode
    subst hmode
    cases th with
    | some m => exact ⟨rfl, rfl⟩
    | none => exact ⟨rfl, rfl⟩
  · intro s fs cg gg hmode
    obtain ⟨cnt, paths, pc, pg, mode, timer, pend⟩ := s
    simp only at hmode
    subst hmode
    rfl
  · intro s fs cg gg th c hmode hc
    have h1 : (toggleAnalysisMode s).currentMode = AnalysisMode.general := by
      obtain ⟨cnt, paths, pc, pg, mode, timer, pend⟩ := s
      simp only at hmode
      subst hmode
      rfl
    have h2 := hGenCode (toggleAnalysisMode s) fs cg gg th h1
    exact h2.trans hc

/-- Witness for C6, discharging its mode hypotheses at a concrete
general-mode state. -/
theorem mode_isolation_witness :
    (runAnalysis c6State fsAllValid
        (Except.ok { code := "c", summary := "s", timeComplexity := "t",
                     spaceComplexity := "sp", language := "L" })
        (Except.ok { answer := "a", explanation := "e", test := "t" })
        none).1.previousCodeAnalysis = c6State.previousCodeAnalysis ∧
    (runAnalysis c6State fsAllValid
        (Except.ok { code := "c", summary := "s", timeComplexity := "t",
                     spaceComplexity := "sp", language := "L" })
        (Except.ok { answer := "a", explanation := "e", test := "t" })
        none).2.requestContext = ctxArg c6State.previousGeneralAnalysis := by
  obtain ⟨hGenCode, -, -, -, hReq, -, -⟩ := mode_isolation
  exact ⟨hGenCode c6State fsAllValid _ _ none rfl, hReq c6State fsAllValid _ _ rfl⟩

/-! ## C1 — single-flight with coalescing -/

theorem flightInv_trig (s : FlightState) (h : flightInv s) :
    flightInv (trigAnalysis s) := by
  obtain ⟨h1, h2⟩ := h
  unfold trigAnalysis
  by_cases hpne : s.pathsNonempty = false
  · rw [if_pos hpne]
    exact ⟨h1, h2⟩
  · rw [if_neg hpne]
    by_cases hrun : s.isAnalysisRunning = true
    · rw [if_pos hrun]
      exact ⟨h1, h2⟩
    · rw [if_neg hrun]
      by_cases hm : s.hasModel = false
      · rw [if_pos hm]
        exact ⟨h1, h2⟩
      · rw [if_neg hm]
        constructor
        · have h0 : s.inFlight = 0 := by
            rw [h1, if_neg hrun]
          simp [h0]
        · intro _
          cases hmv : s.hasModel with
          | true => rfl
          | false => exact absurd hmv hm

theorem flightInv_complete (s : FlightState) (h : flightInv s) :
    flightInv (completeRun s) := by
  obtain ⟨h1, h2⟩ := h
  have hs1 : flightInv
      { s with isAnalysisRunning := false, inFlight := s.inFlight - 1 } := by
    constructor
    · show s.inFlight - 1 = _
      rw [h1]
      cases s.isAnalysisRunning <;> simp
    · intro hcontra
      exact absurd hcontra (by simp)
  show flightInv
    (if ({ s with isAnalysisRunning := false, inFlight := s.inFlight - 1 } :
          FlightState).pendingAnalysis = true ∧
        ({ s with isAnalysisRunning := false, inFlight := s.inFlight - 1 } :
          FlightState).pathsNonempty = true then
      trigAnalysis
        { s with isAnalysisRunning := false, inFlight := s.inFlight - 1,
                 pendingAnalysis := false }
    else { s with isAnalysisRunning := false, inFlight := s.inFlight - 1 })
  by_cases hc : ({ s with isAnalysisRunning := false, inFlight := s.inFlight - 1 } :
        FlightState).pendingAnalysis = true ∧
      ({ s with isAnalysisRunning := false, inFlight := s.inFlight - 1 } :
        FlightState).pathsNonempty = true
  · rw [if_pos hc]
    exact flightInv_trig _ ⟨hs1.1, hs1.2⟩
  · rw [if_neg hc]
    exact hs1

theorem flightInv_step (s t : FlightState) (e : FlightEvent)
    (h : flightInv s) (hst : flightStep s e = some t) : flightInv t := by
  cases e with
  | complete =>
    have hst2 : (if s.inFlight = 0 then none else some (completeRun s)) = some t := hst
    by_cases h0 : s.inFlight = 0
    · rw [if_pos h0] at hst2
      exact absurd hst2 (by simp)
    · rw [if_neg h0] at hst2
      cases Option.some.inj hst2
      exact flightInv_complete s h
  | manual =>
    have hst' : (if s.pathsNonempty = true then
        trigAnalysis { s with pendingAnalysis := false } else s) = t :=
      Option.some.inj hst
    rw [← hst']
    by_cases hpne : s.pathsNonempty = true
    · rw [if_pos hpne]
      exact flightInv_trig _ ⟨h.1, h.2⟩
    · rw [if_neg hpne]
      exact h
  | scheduled =>
    have hst' : trigAnalysis s = t := Option.some.inj hst
    rw [← hst']
    exact flightInv_trig s h

theorem flightInv_reachable (s : FlightState) (h : FlightReachable s) :
    flightInv s := by
  induction h with
  | init pne hm =>
    exact ⟨rfl, fun hc => absurd hc (by simp [initFlight])⟩
  | step s e t hs hstep ih =>
    exact flightInv_step s t e ih hstep

theorem applyTrigger_running (s : FlightState) (e : FlightEvent)
    (hrun : s.isAnalysisRunning = true) (hpne : s.pathsNonempty = true)
    (he : e ≠ FlightEvent.complete) :
    applyTrigger s e = { s with pendingAnalysis := true } := by
  cases e with
  | complete => exact absurd rfl he
  | manual =>
    unfold applyTrigger
    rw [if_pos hpne]
    unfold trigAnalysis
    rw [if_neg (by simp [hpne]), if_pos (show _ = true from hrun)]
  | scheduled =>
    show trigAnalysis s = _
    unfold trigAnalysis
    rw [if_neg (by simp [hpne]), if_pos hrun]

theorem foldl_triggers (ts : List FlightEvent) :
    ∀ s : FlightState, s.isAnalysisRunning = true → s.pathsNonempty = true →
      (∀ t ∈ ts, t ≠ FlightEvent.complete) →
      ts.foldl applyTrigger s =
        (if ts.isEmpty then s else { s with pendingAnalysis := true }) := by
  induction ts with
  | nil =>
    intro s _ _ _
    rfl
  | cons t ts ih =>
    intro s hrun hpne hts
    rw [List.foldl_cons,
      applyTrigger_running s t hrun hpne (hts t (List.mem_cons_self t ts)),
      ih { s with pendingAnalysis := true } hrun hpne
        (fun u hu => hts u (List.mem_cons_of_mem t hu))]
    by_cases hempty : ts.isEmpty = true <;> simp [hempty]

/-- C1: over every interleaving of trigger events and completions, at
most one gateway call is ever in flight; a trigger arriving while a call
is running starts nothing and only sets the pending flag; and from a
running state, any non-empty burst of triggers followed by the completion
of the in-flight call starts exactly one rerun — the pending request is
consumed, not dropped, and the rerun itself is a single new in-flight
call. -/
theorem single_flight_coalescing :
    (∀ s : FlightState, FlightReachable s → s.inFlight ≤ 1) ∧
    (∀ (s : FlightState) (e : FlightEvent), s.isAnalysisRunning = true →
        s.pathsNonempty = true → e ≠ FlightEvent.complete →
        flightStep s e = some { s with pendingAnalysis := true }) ∧
    (∀ (s : FlightState) (ts : List FlightEvent), FlightReachable s →
        s.isAnalysisRunning = true → s.pathsNonempty = true → ts ≠ [] →
        (∀ t ∈ ts, t ≠ FlightEvent.complete) →
        flightStep (ts.foldl applyTrigger s) FlightEvent.complete =
          some (completeRun (ts.foldl applyTrigger s)) ∧
        (completeRun (ts.foldl applyTrigger s)).started = s.started + 1 ∧
        (completeRun (ts.foldl applyTrigger s)).isAnalysisRunning = true ∧
        (completeRun (ts.foldl applyTrigger s)).pendingAnalysis = false ∧
        (completeRun (ts.foldl applyTrigger s)).inFlight = 1) := by
  refine ⟨?_, ?_, ?_⟩
  · intro s hr
    rw [(flightInv_reachable s hr).1]
    cases s.isAnalysisRunning <;> simp
  · intro s e hrun hpne he
    cases e with
    | complete => exact absurd rfl he
    | manual =>
      show some (applyTrigger s FlightEvent.manual) = _
      rw [applyTrigger_running s FlightEvent.manual hrun hpne he]
    | scheduled =>
      show some (applyTrigger s FlightEvent.scheduled) = _
      rw [applyTrigger_running s FlightEvent.scheduled hrun hpne he]
  · intro s ts hr hrun hpne hne hts
    have hempty : ts.isEmpty = false := by
      cases ts with
      | nil => exact absurd rfl hne
      | cons t ts => rfl
    have hfold := foldl_triggers ts s hrun hpne hts
    rw [hempty] at hfold
    simp only [Bool.false_eq_true, if_false] at hfold
    rw [hfold]
    have hinv := flightInv_reachable s hr
    have hfl1 : s.inFlight = 1 := by
      rw [hinv.1, if_pos hrun]
    have hm : s.hasModel = true := hinv.2 hrun
    constructor
    · unfold flightStep
      rw [if_neg (show ¬(({ s with pendingAnalysis := true } : FlightState).inFlight = 0) by
        simp [hfl1])]
    · unfold completeRun
      rw [if_pos (show (true = true ∧ s.pathsNonempty = true) from ⟨rfl, hpne⟩)]
      unfold trigAnalysis
      rw [if_neg (by simp [hpne]), if_neg (by simp), if_neg (by simp [hm])]
      refine ⟨rfl, rfl, rfl, ?_⟩
      show s.inFlight - 1 + 1 = 1
      rw [hfl1]

/-- Witness for C1, discharging reachability, the running and guard
hypotheses, and the trigger-burst conditions at a concrete reachable
running state with a burst of two triggers. -/
theorem single_flight_witness :
    c1Start.inFlight ≤ 1 ∧
    flightStep c1Start FlightEvent.manual = some { c1Start with pendingAnalysis := true } ∧
    (completeRun (([FlightEvent.scheduled, FlightEvent.manual] :
        List FlightEvent).foldl applyTrigger c1Start)).started = c1Start.started + 1 := by
  obtain ⟨h1, h2, h3⟩ := single_flight_coalescing
  have hreach : FlightReachable c1Start :=
    FlightReachable.step (initFlight true true) FlightEvent.scheduled c1Start
      (FlightReachable.init true true) rfl
  have h3app := h3 c1Start [FlightEvent.scheduled, FlightEvent.manual] hreach rfl rfl
    (by decide) (by decide)
  exact ⟨h1 c1Start hreach, h2 c1Start FlightEvent.manual rfl rfl (by decide), h3app.2.1⟩

end CodeLens
